import Mathlib

/-!
Shallow embedding of the snake-game logic module (`src/game.rs`) of the
repository `Divoolej/bevy-snake`, together with theorems settling the
specification claims about it.

Modelling conventions:
* `Position` uses mathematical integers for the `i32` fields; every
  arithmetic operation performed by the program on them (`± 1`) stays far
  from `i32` overflow in reachable states, and the claims quantify over
  small concrete values, so no wrap-around modelling is needed.  The
  bounds check `head_position.x as u32 >= ARENA_WIDTH` is only reached
  with `x ≥ 0` (the `x < 0` disjunct short-circuits first), so it is
  modelled as `ARENA_WIDTH ≤ x` over `Int`.
* Bevy ECS plumbing is replaced by explicit state passing: each system
  function becomes a Lean function of exactly the data it reads, returning
  the data it writes.  The chain `SnakeSegments(Vec<Entity>)` together
  with the per-entity `Position` components is modelled as the list of the
  chain members' positions in chain order (head first), which is how every
  system of the module accesses them.  Events (`GameOverEvent`,
  `GrowthEvent`) are modelled by the number of events sent/pending.
* A Rust `unwrap` that can panic is modelled by an `Option` result:
  `none` is the panic.
-/

/-- Constant `ARENA_WIDTH: u32 = 10` (game.rs line 75). -/
def ARENA_WIDTH : Nat := 10

/-- Constant `ARENA_HEIGHT: u32 = 10` (game.rs line 76). -/
def ARENA_HEIGHT : Nat := 10

/-- Source `struct Position { x: i32, y: i32 }` (game.rs lines 22–26). -/
structure Position where
  x : Int
  y : Int
deriving DecidableEq, Repr

/-- Source `enum Direction { Left, Up, Right, Down }` (game.rs lines 42–48). -/
inductive Direction where
  | Left
  | Up
  | Right
  | Down
deriving DecidableEq, Repr

/-- Source function `Direction::opposite` (game.rs lines 50–59). -/
def Direction.opposite : Direction → Direction
  | .Left => .Right
  | .Up => .Down
  | .Right => .Left
  | .Down => .Up

/-- Source `struct SnakeHead` (game.rs lines 6–9): the two direction components of
the head entity. -/
structure SnakeHead where
  input_direction : Direction
  movement_direction : Direction
deriving DecidableEq, Repr

/-- The externally maintained keyboard state read by `snake_movement_input`:
whether each of the four arrow keys is currently pressed. -/
structure KeysHeld where
  left : Bool
  right : Bool
  up : Bool
  down : Bool
deriving DecidableEq, Repr

/-- The candidate direction computed by the `let new_direction = { ... }`
block of `snake_movement_input` (game.rs lines 121–127): first pressed key
in priority order Left, Right, Up, Down; otherwise the current
`input_direction`. -/
def new_direction (keys : KeysHeld) (head : SnakeHead) : Direction :=
  if keys.left then .Left
  else if keys.right then .Right
  else if keys.up then .Up
  else if keys.down then .Down
  else head.input_direction

/-- System `snake_movement_input` (game.rs lines 119–133).  The head query yields
at most one head (`heads.iter_mut().next()`); with no head the system does
nothing.  The candidate is written to `input_direction` only when it is not
the opposite of `movement_direction`. -/
def snake_movement_input (keys : KeysHeld) : Option SnakeHead → Option SnakeHead
  | none => none
  | some head =>
    if new_direction keys head ≠ head.movement_direction.opposite then
      some { head with input_direction := new_direction keys head }
    else
      some head

/-- The one-unit step applied to the head position by the
`match head.input_direction` block of `snake_movement` (game.rs lines
148–153). -/
def move_position (d : Direction) (p : Position) : Position :=
  match d with
  | .Left => { p with x := p.x - 1 }
  | .Up => { p with y := p.y + 1 }
  | .Right => { p with x := p.x + 1 }
  | .Down => { p with y := p.y - 1 }

/-- The out-of-bounds test of `snake_movement` (game.rs lines 155–158):
`x < 0 || x as u32 >= ARENA_WIDTH || y < 0 || y as u32 >= ARENA_HEIGHT`
(the casts are reached only when the coordinate is non-negative). -/
def out_of_bounds (p : Position) : Bool :=
  p.x < 0 || (ARENA_WIDTH : Int) ≤ p.x || p.y < 0 || (ARENA_HEIGHT : Int) ≤ p.y

/-- The data written by `snake_movement`: the head components, the chain
members' positions (chain order, head first), the `LastTailPosition`
resource, and how many `GameOverEvent`s were sent this run. -/
structure MovementResult where
  head : Option SnakeHead
  chain : List Position
  last_tail_position : Option Position
  game_over_events : Nat
deriving DecidableEq, Repr

/-- System `snake_movement` (game.rs lines 135–172), on the chain-position model.
With no head entity the body of the `if let` never runs.  Otherwise the
head entity is the first chain element (`spawn_snake` creates it at index
0 and every later stage preserves that), so the pre-step snapshot
`segment_positions` is the input chain; the head position is stepped along
`input_direction`; `movement_direction` is assigned `input_direction`; the
two game-over `if`s each send one event independently (no early return);
the `zip`/`skip(1)` loop assigns snapshot position `i-1` to segment `i`
for `1 ≤ i ≤ N-1`, leaving the head untouched, so the new chain is the
stepped head followed by `dropLast` of the snapshot; finally
`last_tail_position` is overwritten with the snapshot's last element.
The `some head, []` branch (a head entity that is missing from the chain
vector) has no counterpart in any state the program constructs; it
transcribes the same code, whose loop and snapshot are then empty. -/
def snake_movement (head? : Option SnakeHead) (chain : List Position)
    (last_tail_position : Option Position) : MovementResult :=
  match head? with
  | none => ⟨none, chain, last_tail_position, 0⟩
  | some head =>
    match chain with
    | [] => ⟨some { head with movement_direction := head.input_direction }, [], none, 0⟩
    | hp :: rest =>
      let segment_positions := hp :: rest
      let head_position := move_position head.input_direction hp
      let events :=
        (if out_of_bounds head_position then 1 else 0) +
        (if head_position ∈ segment_positions then 1 else 0)
      ⟨some { head with movement_direction := head.input_direction },
       head_position :: segment_positions.dropLast,
       segment_positions.getLast?,
       events⟩

/-- System `snake_eating` (game.rs lines 174–188), on the position model: given
the head position (none when no head entity exists) and the food
positions, return the surviving food positions and the number of
`GrowthEvent`s sent — the loop despawns each food whose position equals
the head position and sends one event per match. -/
def snake_eating (head_position? : Option Position) (foods : List Position) :
    List Position × Nat :=
  match head_position? with
  | none => (foods, 0)
  | some hp =>
    foods.foldl
      (fun acc food =>
        if food = hp then (acc.1, acc.2 + 1) else (acc.1 ++ [food], acc.2))
      ([], 0)

/-- System `snake_growth` (game.rs lines 190–204): if at least one `GrowthEvent`
is pending (`growth_reader.iter().next().is_some()`), push exactly one new
segment at `last_tail_position.0.unwrap()`.  The `unwrap` on `None` is a
panic, modelled as `none`; otherwise the new chain is returned. -/
def snake_growth (growth_events : Nat) (last_tail_position : Option Position)
    (chain : List Position) : Option (List Position) :=
  if growth_events ≠ 0 then
    match last_tail_position with
    | some p => some (chain ++ [p])
    | none => none
  else
    some chain

/-- System `spawn_snake` (game.rs lines 91–117): the chain is rebuilt as the head
entity at `Position { x: 3, y: 3 }` with both directions `Up`, followed by
one segment at `Position { x: 3, y: 2 }`. -/
def spawn_snake : Option SnakeHead × List Position :=
  (some ⟨Direction.Up, Direction.Up⟩, [⟨3, 3⟩, ⟨3, 2⟩])

/-- The data written by `game_over`: the food positions, the head
components and the chain positions after the system runs. -/
structure GameOverResult where
  foods : List Position
  head : Option SnakeHead
  chain : List Position
deriving DecidableEq, Repr

/-- System `game_over` (game.rs lines 206–220): if at least one `GameOverEvent`
is pending, despawn every food entity and every segment entity (head
included) and run `spawn_snake`; otherwise nothing happens.  (The
`LastTailPosition` resource is not touched by this system.) -/
def game_over (game_over_events : Nat) (foods : List Position)
    (head? : Option SnakeHead) (chain : List Position) : GameOverResult :=
  if game_over_events ≠ 0 then
    { foods := [], head := spawn_snake.1, chain := spawn_snake.2 }
  else
    { foods := foods, head := head?, chain := chain }

/-- C8: `Direction::opposite` is a total involution: for every direction
`d`, `opposite (opposite d) = d` and `opposite d ≠ d`. -/
theorem opposite_involution (d : Direction) :
    d.opposite.opposite = d ∧ d.opposite ≠ d := by
  cases d <;> exact ⟨rfl, by decide⟩

/-- C10: if no head entity exists, `snake_movement` is a complete no-op:
the chain positions are unchanged, `LastTailPosition` is unchanged, no
head components are modified, and no `GameOverEvent` is emitted. -/
theorem snake_movement_no_head_noop (chain : List Position)
    (last_tail_position : Option Position) :
    snake_movement none chain last_tail_position
      = ⟨none, chain, last_tail_position, 0⟩ := rfl

/-- Unfolding lemma for `snake_movement` in the normal case: a head entity
present and a non-empty chain. -/
theorem snake_movement_some_cons (h : SnakeHead) (hp : Position)
    (rest : List Position) (ltp : Option Position) :
    snake_movement (some h) (hp :: rest) ltp =
      ⟨some { h with movement_direction := h.input_direction },
       move_position h.input_direction hp :: (hp :: rest).dropLast,
       (hp :: rest).getLast?,
       (if out_of_bounds (move_position h.input_direction hp) then 1 else 0) +
         (if move_position h.input_direction hp ∈ hp :: rest then 1 else 0)⟩ := rfl

/-- C1: after a Movement stage with no collision, every segment `i ≥ 1`
adopts the pre-step snapshot position of segment `i - 1`, the head keeps
the position obtained by its one-unit step along `input_direction`
(Left: x-1, Up: y+1, Right: x+1, Down: y-1), and `movement_direction` is
set to `input_direction`. -/
theorem snake_movement_follow_invariant (h : SnakeHead) (hp : Position)
    (rest : List Position) (ltp : Option Position)
    (_hnc : (snake_movement (some h) (hp :: rest) ltp).game_over_events = 0) :
    (∀ i, 1 ≤ i → i < (snake_movement (some h) (hp :: rest) ltp).chain.length →
      (snake_movement (some h) (hp :: rest) ltp).chain[i]? = (hp :: rest)[i - 1]?) ∧
    (snake_movement (some h) (hp :: rest) ltp).chain[0]?
      = some (move_position h.input_direction hp) ∧
    (snake_movement (some h) (hp :: rest) ltp).head
      = some { h with movement_direction := h.input_direction } ∧
    (∀ p : Position,
      move_position .Left p = ⟨p.x - 1, p.y⟩ ∧
      move_position .Up p = ⟨p.x, p.y + 1⟩ ∧
      move_position .Right p = ⟨p.x + 1, p.y⟩ ∧
      move_position .Down p = ⟨p.x, p.y - 1⟩) := by
  refine ⟨?_, ?_, ?_, fun p => ⟨rfl, rfl, rfl, rfl⟩⟩
  · intro i h1 hlt
    obtain ⟨j, rfl⟩ := Nat.exists_eq_add_of_le h1
    rw [snake_movement_some_cons] at hlt ⊢
    simp only [List.length_cons, List.length_dropLast] at hlt
    have hj : j < (hp :: rest).length - 1 := by
      simp only [List.length_cons]
      omega
    rw [Nat.add_comm 1 j, Nat.add_sub_cancel]
    simp only [List.getElem?_cons_succ]
    rw [List.getElem?_dropLast, if_pos hj]
  · rw [snake_movement_some_cons]
    simp
  · rw [snake_movement_some_cons]

/-- C1 witness: a concrete collision-free movement tick (head `(3,3)`
moving `Up`, one body segment at `(3,2)`) in which segment 1 adopts the
head's pre-step position `(3,3)`. -/
theorem snake_movement_follow_invariant_witness :
    (snake_movement (some ⟨Direction.Up, Direction.Up⟩) [⟨3, 3⟩, ⟨3, 2⟩]
      none).chain[1]? = some ⟨3, 3⟩ :=
  (snake_movement_follow_invariant ⟨Direction.Up, Direction.Up⟩ ⟨3, 3⟩ [⟨3, 2⟩]
    none (by decide)).1 1 (by decide) (by decide)

/-- C2: the Movement stage sends a `GameOverEvent` iff the new head
position is out of bounds or occurs in the pre-step snapshot; when both
conditions hold two events are sent (both `if`s run, no early return); a
head at `(0,3)` moving Left steps to `(-1,3)` and triggers game over, and
a head at `(3,3)` moving Down onto a segment at `(3,2)` triggers game
over. -/
theorem snake_movement_game_over_iff (h : SnakeHead) (hp : Position)
    (rest : List Position) (ltp : Option Position) :
    (0 < (snake_movement (some h) (hp :: rest) ltp).game_over_events ↔
      (out_of_bounds (move_position h.input_direction hp) = true ∨
        move_position h.input_direction hp ∈ hp :: rest)) ∧
    (out_of_bounds (move_position h.input_direction hp) = true ∧
        move_position h.input_direction hp ∈ hp :: rest →
      (snake_movement (some h) (hp :: rest) ltp).game_over_events = 2) ∧
    (move_position Direction.Left ⟨0, 3⟩ = ⟨-1, 3⟩ ∧
      0 < (snake_movement (some ⟨Direction.Left, Direction.Left⟩) [⟨0, 3⟩]
        none).game_over_events) ∧
    (move_position Direction.Down ⟨3, 3⟩ = ⟨3, 2⟩ ∧
      0 < (snake_movement (some ⟨Direction.Down, Direction.Down⟩)
        [⟨3, 3⟩, ⟨3, 2⟩] none).game_over_events) := by
  refine ⟨?_, ?_, by decide, by decide⟩
  · rw [snake_movement_some_cons]
    by_cases h1 : out_of_bounds (move_position h.input_direction hp) <;>
      by_cases h2 : move_position h.input_direction hp ∈ hp :: rest <;>
        simp [h1, h2]
  · rintro ⟨h1, h2⟩
    rw [snake_movement_some_cons]
    simp [h1, h2]

/-- C2 witness: a state in which the stepped head is simultaneously out of
bounds and on a snapshot position, so exactly two `GameOverEvent`s are
sent. -/
theorem snake_movement_game_over_iff_witness :
    (snake_movement (some ⟨Direction.Left, Direction.Left⟩)
      [⟨0, 0⟩, ⟨-1, 0⟩] none).game_over_events = 2 :=
  (snake_movement_game_over_iff ⟨Direction.Left, Direction.Left⟩ ⟨0, 0⟩
    [⟨-1, 0⟩] none).2.1 ⟨by decide, by decide⟩

/-- C9: one unit step never leaves a position in place, so when the
self-collision check fires, the colliding snapshot entry is a body
segment's pre-step position (a member of the tail of the snapshot), never
the head's own vacated cell at index 0. -/
theorem move_position_ne_self :
    (∀ (p : Position) (d : Direction), move_position d p ≠ p) ∧
    (∀ (h : SnakeHead) (hp : Position) (rest : List Position),
      move_position h.input_direction hp ∈ hp :: rest →
      move_position h.input_direction hp ∈ rest) := by
  have hne : ∀ (p : Position) (d : Direction), move_position d p ≠ p := by
    intro p d heq
    have hx : (move_position d p).x = p.x := congrArg Position.x heq
    have hy : (move_position d p).y = p.y := congrArg Position.y heq
    cases d <;> simp only [move_position] at hx hy <;> omega
  refine ⟨hne, fun h hp rest hmem => ?_⟩
  rcases List.mem_cons.mp hmem with heq | hmem2
  · exact absurd heq (hne hp h.input_direction)
  · exact hmem2

/-- C9 witness: the self-collision scenario head `(3,3)` moving Down —
membership of the new head in the snapshot comes from the body segment
`(3,2)`, not from the head's old cell. -/
theorem move_position_ne_self_witness :
    move_position (SnakeHead.mk Direction.Down Direction.Down).input_direction
      ⟨3, 3⟩ ∈ ([⟨3, 2⟩] : List Position) :=
  move_position_ne_self.2 ⟨Direction.Down, Direction.Down⟩ ⟨3, 3⟩ [⟨3, 2⟩]
    (by decide)

/-- C5: every Movement tick records the pre-step snapshot's last element
as `LastTailPosition` (the tick's growth plays no role: `snake_movement`
writes it unconditionally), and a Growth stage consuming that value
appends its new segment exactly at that pre-tick tail position, which
becomes the new last chain element. -/
theorem last_tail_position_and_growth (h : SnakeHead) (hp : Position)
    (rest : List Position) (ltp : Option Position) (growth_events : Nat)
    (chain : List Position) (hk : 1 ≤ growth_events) :
    ∃ t : Position,
      (hp :: rest).getLast? = some t ∧
      (snake_movement (some h) (hp :: rest) ltp).last_tail_position = some t ∧
      snake_growth growth_events
          ((snake_movement (some h) (hp :: rest) ltp).last_tail_position) chain
        = some (chain ++ [t]) ∧
      (chain ++ [t]).getLast? = some t := by
  have h0 : growth_events ≠ 0 := by omega
  have ht : (hp :: rest).getLast? = some ((hp :: rest).getLast (by simp)) :=
    List.getLast?_eq_getLast _ (by simp)
  refine ⟨(hp :: rest).getLast (by simp), ht, ?_, ?_, List.getLast?_concat _⟩
  · rw [snake_movement_some_cons]
    exact ht
  · rw [snake_movement_some_cons]
    dsimp only
    rw [ht]
    simp [snake_growth, h0]

/-- C5 witness: head `(3,3)` moving `Up` with tail `(3,2)`; the recorded
last tail position is `(3,2)` and growth appends the new segment there. -/
theorem last_tail_position_and_growth_witness :
    1 ≤ 1 ∧
    ∃ t : Position,
      ([⟨3, 3⟩, ⟨3, 2⟩] : List Position).getLast? = some t ∧
      (snake_movement (some ⟨Direction.Up, Direction.Up⟩) [⟨3, 3⟩, ⟨3, 2⟩]
        none).last_tail_position = some t ∧
      snake_growth 1
          ((snake_movement (some ⟨Direction.Up, Direction.Up⟩) [⟨3, 3⟩, ⟨3, 2⟩]
            none).last_tail_position) [⟨5, 5⟩]
        = some ([⟨5, 5⟩] ++ [t]) ∧
      (([⟨5, 5⟩] : List Position) ++ [t]).getLast? = some t :=
  ⟨by decide,
   last_tail_position_and_growth ⟨Direction.Up, Direction.Up⟩ ⟨3, 3⟩ [⟨3, 2⟩]
     none 1 [⟨5, 5⟩] (by decide)⟩

/-- C7: with at least one pending `GrowthEvent`, the Growth stage succeeds
whenever `LastTailPosition` is `some` (appending one segment there), and
with `LastTailPosition` still `none` it panics on the `unwrap` (modelled
as `none`) instead of silently skipping growth. -/
theorem snake_growth_requires_last_tail (growth_events : Nat) (p : Position)
    (chain : List Position) (hk : 1 ≤ growth_events) :
    snake_growth growth_events (some p) chain = some (chain ++ [p]) ∧
    snake_growth growth_events none chain = none := by
  have h0 : growth_events ≠ 0 := by omega
  constructor <;> simp [snake_growth, h0]

/-- C7 witness: one pending event, last tail position `(3,2)`. -/
theorem snake_growth_requires_last_tail_witness :
    snake_growth 1 (some ⟨3, 2⟩) [⟨3, 3⟩] = some ([⟨3, 3⟩] ++ [⟨3, 2⟩]) ∧
    snake_growth 1 none [⟨3, 3⟩] = none :=
  snake_growth_requires_last_tail 1 ⟨3, 2⟩ [⟨3, 3⟩] (by decide)

/-- C6: on a pending `GameOverEvent` the lifecycle stage clears every food
position and rebuilds the startup configuration: the chain has exactly the
head entity at `(3,3)` (both directions `Up`) and one segment at `(3,2)`,
so its length is 2 and no stale food or segment remains. -/
theorem game_over_reset (game_over_events : Nat) (foods : List Position)
    (head? : Option SnakeHead) (chain : List Position)
    (hev : 1 ≤ game_over_events) :
    game_over game_over_events foods head? chain
      = ⟨[], some ⟨Direction.Up, Direction.Up⟩, [⟨3, 3⟩, ⟨3, 2⟩]⟩ ∧
    (game_over game_over_events foods head? chain).chain.length = 2 ∧
    (game_over game_over_events foods head? chain).foods = [] := by
  have h0 : game_over_events ≠ 0 := by omega
  refine ⟨?_, ?_, ?_⟩ <;> simp [game_over, spawn_snake, h0]

/-- C6 witness: a populated state (one food, a three-segment chain) with a
pending game-over event resets to the two-entity startup chain. -/
theorem game_over_reset_witness :
    game_over 1 [⟨7, 7⟩] (some ⟨Direction.Left, Direction.Left⟩)
        [⟨1, 1⟩, ⟨1, 2⟩, ⟨1, 3⟩]
      = ⟨[], some ⟨Direction.Up, Direction.Up⟩, [⟨3, 3⟩, ⟨3, 2⟩]⟩ ∧
    (game_over 1 [⟨7, 7⟩] (some ⟨Direction.Left, Direction.Left⟩)
        [⟨1, 1⟩, ⟨1, 2⟩, ⟨1, 3⟩]).chain.length = 2 ∧
    (game_over 1 [⟨7, 7⟩] (some ⟨Direction.Left, Direction.Left⟩)
        [⟨1, 1⟩, ⟨1, 2⟩, ⟨1, 3⟩]).foods = [] :=
  game_over_reset 1 [⟨7, 7⟩] (some ⟨Direction.Left, Direction.Left⟩)
    [⟨1, 1⟩, ⟨1, 2⟩, ⟨1, 3⟩] (by decide)

/-- C3 counterexample: with the head at `(4,4)` and two food entities at
`(4,4)`, the Eating stage raises `k = 2` GrowthEvents, but the Growth
stage appends exactly one segment, so the chain grows by 1, not by
`k = 2` as the claim states. -/
theorem growth_per_event_counterexample :
    (snake_eating (some ⟨4, 4⟩) [⟨4, 4⟩, ⟨4, 4⟩]).2 = 2 ∧
    snake_growth 2 (some ⟨0, 0⟩) [⟨3, 3⟩, ⟨3, 2⟩]
      = some [⟨3, 3⟩, ⟨3, 2⟩, ⟨0, 0⟩] ∧
    ¬ (([⟨3, 3⟩, ⟨3, 2⟩, ⟨0, 0⟩] : List Position).length
        = ([⟨3, 3⟩, ⟨3, 2⟩] : List Position).length + 2) := by
  decide

/-- C3 (amended): chain length never decreases except via a reset to
length 2 — Movement preserves it, Growth with no pending event preserves
it, Growth with `k ≥ 1` pending events appends exactly ONE segment
(regardless of `k`), a pending game-over event resets the chain to length
2, and without one the lifecycle stage changes nothing. -/
theorem chain_length_monotone (head? : Option SnakeHead)
    (chain : List Position) (ltp : Option Position) (growth_events : Nat)
    (p : Position) (game_over_events : Nat) (foods : List Position)
    (hg : 1 ≤ growth_events) (he : 1 ≤ game_over_events) :
    ((snake_movement head? chain ltp).chain.length = chain.length) ∧
    (snake_growth 0 ltp chain = some chain) ∧
    (snake_growth growth_events (some p) chain = some (chain ++ [p])) ∧
    ((chain ++ [p]).length = chain.length + 1) ∧
    ((game_over game_over_events foods head? chain).chain.length = 2) ∧
    (game_over 0 foods head? chain = ⟨foods, head?, chain⟩) := by
  have hg0 : growth_events ≠ 0 := by omega
  have he0 : game_over_events ≠ 0 := by omega
  refine ⟨?_, by simp [snake_growth], by simp [snake_growth, hg0], by simp,
    by simp [game_over, spawn_snake, he0], by simp [game_over]⟩
  match head?, chain with
  | none, chain => rfl
  | some h, [] => rfl
  | some h, hp :: rest =>
    rw [snake_movement_some_cons]
    simp

/-- C3 (amended) witness: one growth event and one game-over event on
concrete states. -/
theorem chain_length_monotone_witness :
    ((snake_movement (some ⟨Direction.Up, Direction.Up⟩) [⟨3, 3⟩, ⟨3, 2⟩]
      none).chain.length = ([⟨3, 3⟩, ⟨3, 2⟩] : List Position).length) ∧
    (snake_growth 0 none [⟨3, 3⟩, ⟨3, 2⟩] = some [⟨3, 3⟩, ⟨3, 2⟩]) ∧
    (snake_growth 1 (some ⟨3, 1⟩) [⟨3, 3⟩, ⟨3, 2⟩]
      = some ([⟨3, 3⟩, ⟨3, 2⟩] ++ [⟨3, 1⟩])) ∧
    ((([⟨3, 3⟩, ⟨3, 2⟩] : List Position) ++ ([⟨3, 1⟩] : List Position)).length
      = ([⟨3, 3⟩, ⟨3, 2⟩] : List Position).length + 1) ∧
    ((game_over 1 [] (some ⟨Direction.Up, Direction.Up⟩)
      [⟨3, 3⟩, ⟨3, 2⟩]).chain.length = 2) ∧
    (game_over 0 [] (some ⟨Direction.Up, Direction.Up⟩) [⟨3, 3⟩, ⟨3, 2⟩]
      = ⟨[], some ⟨Direction.Up, Direction.Up⟩, [⟨3, 3⟩, ⟨3, 2⟩]⟩) :=
  chain_length_monotone (some ⟨Direction.Up, Direction.Up⟩) [⟨3, 3⟩, ⟨3, 2⟩]
    none 1 ⟨3, 1⟩ 1 [] (by decide) (by decide)

/-- C4 counterexample: from the (unreachable in normal flow) head state
with `input_direction = Down` and `movement_direction = Up` and no key
held, the candidate `Down` equals `opposite Up`, is rejected, and the
resulting `input_direction` is `Down = opposite Up` — so the claim fails
for arbitrary head states. -/
theorem no_reversal_counterexample :
    snake_movement_input ⟨false, false, false, false⟩
        (some ⟨Direction.Down, Direction.Up⟩)
      = some ⟨Direction.Down, Direction.Up⟩ ∧
    Direction.Down = Direction.Up.opposite := by
  decide

/-- C4 (amended): for every head state whose `input_direction` is not
already the opposite of `movement_direction` — which holds in every state
the program constructs — and every set of held keys, input capture leaves
`movement_direction` unchanged, never produces an `input_direction`
opposite to it, and rejects a candidate equal to
`movement_direction.opposite` leaving the head unchanged. -/
theorem snake_movement_input_no_reversal (keys : KeysHeld) (head : SnakeHead)
    (hpre : head.input_direction ≠ head.movement_direction.opposite) :
    ∃ head' : SnakeHead,
      snake_movement_input keys (some head) = some head' ∧
      head'.movement_direction = head.movement_direction ∧
      head'.input_direction ≠ head.movement_direction.opposite ∧
      (new_direction keys head = head.movement_direction.opposite →
        head' = head) := by
  by_cases hc : new_direction keys head = head.movement_direction.opposite
  · refine ⟨head, ?_, rfl, hpre, fun _ => rfl⟩
    simp [snake_movement_input, hc]
  · refine ⟨{ head with input_direction := new_direction keys head }, ?_, rfl,
      hc, fun hcc => absurd hcc hc⟩
    simp [snake_movement_input, hc]

/-- C4 (amended) witness: the startup head (both directions `Up`) with the
Down key held: the candidate `Down = opposite Up` is rejected. -/
theorem snake_movement_input_no_reversal_witness :
    ∃ head' : SnakeHead,
      snake_movement_input ⟨false, false, false, true⟩
          (some ⟨Direction.Up, Direction.Up⟩)
        = some head' ∧
      head'.movement_direction
        = (SnakeHead.mk Direction.Up Direction.Up).movement_direction ∧
      head'.input_direction
        ≠ (SnakeHead.mk Direction.Up Direction.Up).movement_direction.opposite ∧
      (new_direction ⟨false, false, false, true⟩ ⟨Direction.Up, Direction.Up⟩
          = (SnakeHead.mk Direction.Up Direction.Up).movement_direction.opposite →
        head' = ⟨Direction.Up, Direction.Up⟩) :=
  snake_movement_input_no_reversal ⟨false, false, false, true⟩
    ⟨Direction.Up, Direction.Up⟩ (by decide)
